import Mathlib

/-!
Verification development for the file-backed task store of the `tasks`
repository (`internal/storage/filestore.go`, `internal/models/task.go`,
`main.go`).

The on-disk state is embedded shallowly: a `Store` is the association of
list identifiers (directory names under `<base>/lists/`) to their
containers; a container holds an optional `list.json` file and an optional
`tasks/` sub-directory, itself an association of task identifiers (file
stems of `<task_id>.json`) to file contents.  A file content is either a
well-formed record or an opaque corrupt byte string; since Go's
`json.MarshalIndent` is deterministic, equality of file-content values
coincides with byte-for-byte equality of the stored files.  The wall
clock (`time.Now()`) is threaded explicitly as a `Nat` parameter `now`;
Go's zero `time.Time` (`IsZero`) is modelled as `0`.
-/

namespace Storage

/-- `models.TaskState` is a Go string type; its values are strings. -/
abbrev TaskState := String

def taskStateTodo : TaskState := "todo"

def taskStateInProgress : TaskState := "in_progress"

def taskStateDone : TaskState := "done"

def taskStateBlocked : TaskState := "blocked"

/-- `models.Note` (task.go): id, content, created_at, updated_at. -/
structure Note where
  id : String
  content : String
  createdAt : Nat
  updatedAt : Nat
deriving DecidableEq, Repr

/-- The fields of `models.Task` (task.go), parametrised by the type of
sub-tasks so that the recursive `SubTasks []Task` field can be tied with
a nested inductive. `DueDate *time.Time` becomes `Option Nat`. -/
structure TaskF (σ : Type) where
  id : String
  title : String
  description : String
  listID : String
  state : TaskState
  stateTime : Nat
  dueDate : Option Nat
  createdAt : Nat
  updatedAt : Nat
  notes : List Note
  subTasks : List σ
deriving Repr

/-- `models.Task`: a `TaskF` whose sub-tasks are again tasks. -/
inductive Task : Type where
  | mk (fields : TaskF Task) : Task

/-- The field record of a task. -/
def Task.fields : Task → TaskF Task
  | .mk f => f

/-- `models.TaskList` (task.go). -/
structure TaskList where
  id : String
  name : String
  description : String
  createdAt : Nat
  updatedAt : Nat
deriving DecidableEq, Repr

/-- Content of a stored `<task_id>.json` file: either bytes that decode
into a `Task`, or corrupt bytes. -/
inductive TaskFile : Type where
  | good (t : Task) : TaskFile
  | corrupt (bytes : String) : TaskFile

/-- Content of a stored `list.json` file. -/
inductive ListFile : Type where
  | good (l : TaskList) : ListFile
  | corrupt (bytes : String) : ListFile

/-- A list's container `<base>/lists/<list_id>/`: optional `list.json`
and optional `tasks/` sub-directory. `none` means the file/directory is
absent. -/
structure ListDir where
  listJson : Option ListFile
  tasksDir : Option (List (String × TaskFile))

/-- The whole directory tree under `<base>/lists/`. -/
structure Store where
  lists : List (String × ListDir)

/-- Error taxonomy of the store (spec §7): `notFound` carries the Go
error message; `decodeErr` stands for a JSON parse failure. -/
inductive StoreError : Type where
  | notFound (msg : String) : StoreError
  | decodeErr (msg : String) : StoreError

/-- Does a result denote a NotFound failure? -/
def isNotFound {α : Type} : Except StoreError α → Bool
  | .error (.notFound _) => true
  | _ => false

/-! ### Directory primitives (association lists keyed by name) -/

/-- Look up the first entry with the given name. -/
def lookupA {α : Type} (k : String) : List (String × α) → Option α
  | [] => none
  | (k2, v) :: rest => if k2 = k then some v else lookupA k rest

/-- Overwrite the entry with the given name in place, or append it. -/
def insertA {α : Type} (k : String) (v : α) : List (String × α) → List (String × α)
  | [] => [(k, v)]
  | (k2, v2) :: rest => if k2 = k then (k, v) :: rest else (k2, v2) :: insertA k v rest

/-- Remove the first entry with the given name. -/
def eraseA {α : Type} (k : String) : List (String × α) → List (String × α)
  | [] => []
  | (k2, v2) :: rest => if k2 = k then rest else (k2, v2) :: eraseA k rest

/-! ### FileStore operations, first variant of `filestore.go` -/

/-- `GetAllLists` (filestore.go 41–75): each sub-directory of the lists
root whose `list.json` reads and parses contributes its record; others
are skipped. -/
def getAllLists (s : Store) : List TaskList :=
  s.lists.filterMap fun e =>
    match e.2.listJson with
    | some (.good l) => some l
    | _ => none

/-- `GetList` (filestore.go 78–97): read `lists/<id>/list.json`;
a missing file (or missing directory) is NotFound, unparseable content a
decode error. -/
def getList (s : Store) (id : String) : Except StoreError TaskList :=
  match lookupA id s.lists with
  | none => .error (.notFound ("list not found: " ++ id))
  | some dir =>
    match dir.listJson with
    | none => .error (.notFound ("list not found: " ++ id))
    | some (.good l) => .ok l
    | some (.corrupt _) => .error (.decodeErr "failed to parse list")

/-- `CreateList` (filestore.go 100–133): set both timestamps to `now`,
create the list directory (idempotent), write `list.json`, create the
`tasks` sub-directory (idempotent). -/
def createList (s : Store) (list : TaskList) (now : Nat) : Store :=
  let list := { list with createdAt := now, updatedAt := now }
  let dir := (lookupA list.id s.lists).getD ⟨none, none⟩
  let dir := { dir with listJson := some (.good list) }
  let dir := { dir with tasksDir := some (dir.tasksDir.getD []) }
  ⟨insertA list.id dir s.lists⟩

/-- `UpdateList` (filestore.go 136–161): NotFound if the list directory
is absent; otherwise refresh `updated_at` and overwrite `list.json`
wholesale with the caller's record. -/
def updateList (s : Store) (list : TaskList) (now : Nat) : Except StoreError Store :=
  match lookupA list.id s.lists with
  | none => .error (.notFound ("list not found: " ++ list.id))
  | some dir =>
    let list := { list with updatedAt := now }
    .ok ⟨insertA list.id { dir with listJson := some (.good list) } s.lists⟩

/-- `DeleteList` (filestore.go 164–178): NotFound if the list directory
is absent; otherwise remove the whole subtree. -/
def deleteList (s : Store) (id : String) : Except StoreError Store :=
  match lookupA id s.lists with
  | none => .error (.notFound ("list not found: " ++ id))
  | some _ => .ok ⟨eraseA id s.lists⟩

/-- The good records among a tasks directory's files, in directory
order. -/
def goodTasks (entries : List (String × TaskFile)) : List Task :=
  entries.filterMap fun e =>
    match e.2 with
    | .good t => some t
    | .corrupt _ => none

/-- `getTasksForList` (filestore.go 217–253): NotFound if the `tasks`
sub-directory is absent; otherwise return every file that reads and
parses, skipping the rest. -/
def getTasksForList (s : Store) (listID : String) : Except StoreError (List Task) :=
  match lookupA listID s.lists with
  | none => .error (.notFound ("list not found: " ++ listID))
  | some dir =>
    match dir.tasksDir with
    | none => .error (.notFound ("list not found: " ++ listID))
    | some entries => .ok (goodTasks entries)

/-- The file stored at `lists/<listID>/tasks/<taskID>.json`, if any. -/
def readTaskFile (s : Store) (listID taskID : String) : Option TaskFile :=
  match lookupA listID s.lists with
  | none => none
  | some dir =>
    match dir.tasksDir with
    | none => none
    | some entries => lookupA taskID entries

/-- `GetTask`, strict variant (filestore.go 256–275): read the file at
the resolved path; absence is NotFound, unparseable content a decode
error. -/
def getTask (s : Store) (listID taskID : String) : Except StoreError Task :=
  match readTaskFile s listID taskID with
  | none => .error (.notFound ("task not found: " ++ listID ++ "/" ++ taskID))
  | some (.good t) => .ok t
  | some (.corrupt _) => .error (.decodeErr "failed to parse task")

/-- Scan loop of the fallback `GetTask` (filestore.go 747–765): try
`lists/<l.id>/tasks/<taskID>.json` for each discovered list in order. -/
def findTaskScan (s : Store) (taskID : String) : List TaskList → Except StoreError Task
  | [] => .error (.notFound ("task not found: " ++ taskID))
  | l :: rest =>
    match readTaskFile s l.id taskID with
    | some (.good t) => .ok t
    | some (.corrupt _) => .error (.decodeErr "failed to parse task")
    | none => findTaskScan s taskID rest

/-- `GetTask`, fallback variant (filestore.go 717–769): try the resolved
path first; on a miss (and a non-empty `listID`) scan every list found
by `GetAllLists` for a file with that task id. -/
def getTaskFallback (s : Store) (listID taskID : String) : Except StoreError Task :=
  match readTaskFile s listID taskID with
  | some (.good t) => .ok t
  | some (.corrupt _) => .error (.decodeErr "failed to parse task")
  | none =>
    if listID = "" then .error (.notFound ("task not found: " ++ taskID))
    else findTaskScan s taskID (getAllLists s)

/-- `CreateTask` (filestore.go 278–314): NotFound if the owning list's
directory is absent; create the `tasks` sub-directory if missing; set
`created_at`/`updated_at` to `now` and default a zero `state_time` to
`now`; write the file (overwriting any existing one). -/
def createTask (s : Store) (task : Task) (now : Nat) : Except StoreError Store :=
  match task with
  | .mk t =>
    match lookupA t.listID s.lists with
    | none => .error (.notFound ("list not found: " ++ t.listID))
    | some dir =>
      let entries := dir.tasksDir.getD []
      let t := { t with createdAt := now, updatedAt := now,
                        stateTime := if t.stateTime = 0 then now else t.stateTime }
      .ok ⟨insertA t.listID { dir with tasksDir := some (insertA t.id (.good (.mk t)) entries) }
            s.lists⟩

/-- `UpdateTask` (filestore.go 317–358): NotFound if the list directory
is absent; create the `tasks` sub-directory if missing; refresh
`updated_at`; write the record wholesale at `tasks/<task.id>.json`
whether or not a file was there before. -/
def updateTask (s : Store) (task : Task) (now : Nat) : Except StoreError Store :=
  match task with
  | .mk t =>
    match lookupA t.listID s.lists with
    | none => .error (.notFound ("list directory not found: " ++ t.listID))
    | some dir =>
      let entries := dir.tasksDir.getD []
      let t := { t with updatedAt := now }
      .ok ⟨insertA t.listID { dir with tasksDir := some (insertA t.id (.good (.mk t)) entries) }
            s.lists⟩

/-- `os.Remove` of a task file: drop the entry if the path resolves. -/
def removeTaskFile (s : Store) (listID taskID : String) : Store :=
  match lookupA listID s.lists with
  | none => s
  | some dir =>
    match dir.tasksDir with
    | none => s
    | some entries =>
      ⟨insertA listID { dir with tasksDir := some (eraseA taskID entries) } s.lists⟩

/-- `MoveTask` (filestore.go 361–427): ensure the source `tasks`
directory exists (`MkdirAll`), read and parse the source file, rewrite
`list_id` and `updated_at`, check the destination list directory exists
(NotFound otherwise), ensure the destination `tasks` directory, write
the record there, then delete the source file.  Returns the resulting
directory tree together with the outcome. -/
def moveTask (s : Store) (originalListID taskID newListID : String) (now : Nat) :
    Store × Except StoreError Task :=
  let origDir0 := (lookupA originalListID s.lists).getD ⟨none, none⟩
  let origEntries := origDir0.tasksDir.getD []
  let s1 : Store := ⟨insertA originalListID { origDir0 with tasksDir := some origEntries } s.lists⟩
  match lookupA taskID origEntries with
  | none => (s1, .error (.notFound ("task not found: " ++ originalListID ++ "/" ++ taskID)))
  | some (.corrupt _) => (s1, .error (.decodeErr "failed to parse task"))
  | some (.good (.mk t)) =>
    let t := { t with listID := newListID, updatedAt := now }
    match lookupA newListID s1.lists with
    | none => (s1, .error (.notFound ("destination list not found: " ++ newListID)))
    | some newDir =>
      let newEntries := newDir.tasksDir.getD []
      let s2 : Store :=
        ⟨insertA newListID { newDir with tasksDir := some (insertA taskID (.good (.mk t)) newEntries) }
          s1.lists⟩
      let s3 := removeTaskFile s2 originalListID taskID
      (s3, .ok (.mk t))

/-- `DeleteTask`, strict variant (filestore.go 430–444): NotFound if the
file at the resolved path is absent, otherwise remove it. -/
def deleteTask (s : Store) (listID taskID : String) : Except StoreError Store :=
  match readTaskFile s listID taskID with
  | none => .error (.notFound ("task not found: " ++ listID ++ "/" ++ taskID))
  | some _ => .ok (removeTaskFile s listID taskID)

/-! ### The update handler (main.go `HandleUpdateTask`, form branch)

The spec's state-change timestamp rule lives in the transport layer:
`HandleUpdateTask` loads the existing task, applies the parsed request,
and refreshes `state_time` exactly when the state changed
(main.go 453–455).  The form branch of `parseTaskFormOrJSON`
(main.go 511–545) patches individual fields and never touches
`state_time`. -/

/-- The `due_date` form value after `time.Parse("2006-01-02", ·)`:
absent from the form, the literal `"clear"` or empty (clears the date),
a date that parses, or one that does not (left unchanged). -/
inductive FormDueDate : Type where
  | absent : FormDueDate
  | clear : FormDueDate
  | setTo (d : Nat) : FormDueDate
  | invalid : FormDueDate
deriving DecidableEq, Repr

/-- The decoded form body of a task update request. An empty string for
`title`/`state`/`listID` models the field being absent from the form
(`r.FormValue` returns `""` then); `hasDescription` models
`r.Form.Has("description")`. -/
structure TaskForm where
  title : String
  hasDescription : Bool
  description : String
  state : TaskState
  listID : String
  dueDate : FormDueDate
deriving DecidableEq, Repr

/-- `if title := r.FormValue("title"); title != "" { task.Title = title }`. -/
def applyFormTitle (t : TaskF Task) (f : TaskForm) : TaskF Task :=
  if f.title ≠ "" then { t with title := f.title } else t

/-- `if r.Form.Has("description") { task.Description = ... }`. -/
def applyFormDescription (t : TaskF Task) (f : TaskForm) : TaskF Task :=
  if f.hasDescription then { t with description := f.description } else t

/-- `if state := r.FormValue("state"); state != "" { task.State = ... }`. -/
def applyFormState (t : TaskF Task) (f : TaskForm) : TaskF Task :=
  if f.state ≠ "" then { t with state := f.state } else t

/-- `if listID := r.FormValue("list_id"); listID != "" { task.ListID = ... }`. -/
def applyFormListID (t : TaskF Task) (f : TaskForm) : TaskF Task :=
  if f.listID ≠ "" then { t with listID := f.listID } else t

/-- The `due_date` handling of the form branch (main.go 534–545). -/
def applyFormDueDate (t : TaskF Task) (f : TaskForm) : TaskF Task :=
  match f.dueDate with
  | .absent => t
  | .clear => { t with dueDate := none }
  | .setTo d => { t with dueDate := some d }
  | .invalid => t

/-- `parseTaskFormOrJSON`, form branch (main.go 511–545), applied to a
task value. -/
def applyForm (t : TaskF Task) (f : TaskForm) : TaskF Task :=
  applyFormDueDate (applyFormListID (applyFormState (applyFormDescription (applyFormTitle t f) f) f) f) f

/-- `HandleUpdateTask` (main.go 430–505) for a form-encoded request:
if the task loads, patch it, refresh `updated_at`, refresh `state_time`
iff the state changed, then route to `MoveTask` when the list changed
and to `UpdateTask` otherwise; if the load fails, build a fresh task
from the form and `CreateTask` it.  Both `GetTask` variants of the
source agree whenever the record exists at the resolved path, which is
the only case the theorems below use; the strict one is taken here. -/
def handleUpdateTaskForm (s : Store) (listID taskID : String) (form : TaskForm) (now : Nat) :
    Store × Except StoreError Task :=
  match getTask s listID taskID with
  | .ok (.mk existing) =>
    let updated := applyForm existing form
    let updated := { updated with updatedAt := now }
    let updated := if updated.state ≠ existing.state then { updated with stateTime := now }
                   else updated
    if updated.listID ≠ listID then
      let r := moveTask s listID taskID updated.listID now
      match r.2 with
      | .error e => (r.1, .error e)
      | .ok _ => (r.1, .ok (.mk updated))
    else
      match updateTask s (.mk updated) now with
      | .error e => (s, .error e)
      | .ok s2 => (s2, .ok (.mk updated))
  | .error _ =>
    let t0 : TaskF Task :=
      { id := taskID, title := "", description := "", listID := listID, state := "",
        stateTime := 0, dueDate := none, createdAt := 0, updatedAt := 0, notes := [],
        subTasks := [] }
    let t := applyForm t0 form
    let t := { t with createdAt := now, updatedAt := now, stateTime := now }
    let t := if t.state = "" then { t with state := taskStateTodo } else t
    match createTask s (.mk t) now with
    | .error e => (s, .error e)
    | .ok s2 => (s2, .ok (.mk t))

/-- Does the container hold a file named `<taskID>.json`? -/
def dirHasTask (d : ListDir) (taskID : String) : Bool :=
  match d.tasksDir with
  | none => false
  | some entries => (lookupA taskID entries).isSome

/-! ### Concrete fixtures used by the witness and counterexample theorems -/

/-- A sample task stored as `lists/a/tasks/t1.json`. -/
def wTask : TaskF Task :=
  ⟨"t1", "Buy milk", "", "a", taskStateTodo, 1, none, 1, 1, [], []⟩

/-- Container of list `a`, holding the sample task. -/
def wDirA : ListDir :=
  ⟨some (.good ⟨"a", "Inbox", "", 0, 0⟩), some [("t1", .good (.mk wTask))]⟩

/-- Container of list `b`, with an empty tasks directory. -/
def wDirB : ListDir :=
  ⟨some (.good ⟨"b", "Later", "", 0, 0⟩), some []⟩

/-- A two-list store: `a` holds the sample task, `b` is empty. -/
def wStore : Store := ⟨[("a", wDirA), ("b", wDirB)]⟩

/-- A store where list `a` is empty and list `b` holds task `t1`. -/
def c2Store : Store :=
  ⟨[("a", ⟨some (.good ⟨"a", "Inbox", "", 0, 0⟩), some []⟩),
    ("b", ⟨some (.good ⟨"b", "Later", "", 0, 0⟩),
           some [("t1", .good (.mk { wTask with listID := "b" }))]⟩)]⟩

/-- A list record used by the created-at counterexample. -/
def c5List : TaskList := ⟨"a", "Inbox", "", 0, 0⟩

/-! ### Directory-primitive lemmas -/

theorem lookupA_insertA_self {α : Type} (k : String) (v : α) (l : List (String × α)) :
    lookupA k (insertA k v l) = some v := by
  induction l with
  | nil => simp [insertA, lookupA]
  | cons e rest ih =>
    obtain ⟨k2, v2⟩ := e
    by_cases h : k2 = k
    · simp [insertA, lookupA, h]
    · simp [insertA, lookupA, h, ih]

theorem lookupA_insertA_ne {α : Type} (k k' : String) (v : α) (l : List (String × α))
    (h : k' ≠ k) : lookupA k' (insertA k v l) = lookupA k' l := by
  have h2 : ¬(k = k') := Ne.symm h
  induction l with
  | nil => simp [insertA, lookupA, h2]
  | cons e rest ih =>
    obtain ⟨k2, v2⟩ := e
    by_cases h3 : k2 = k
    · subst h3
      simp [insertA, lookupA, h2]
    · simp [insertA, lookupA, h3, ih]

theorem lookupA_eq_none_of_not_mem {α : Type} (k : String) (l : List (String × α))
    (h : k ∉ l.map Prod.fst) : lookupA k l = none := by
  induction l with
  | nil => rfl
  | cons e rest ih =>
    obtain ⟨k2, v2⟩ := e
    simp only [List.map_cons, List.mem_cons, not_or] at h
    have h2 : ¬(k2 = k) := Ne.symm h.1
    simp [lookupA, h2, ih h.2]

theorem lookupA_mem {α : Type} (k : String) (v : α) (l : List (String × α))
    (h : lookupA k l = some v) : (k, v) ∈ l := by
  induction l with
  | nil => simp [lookupA] at h
  | cons e rest ih =>
    obtain ⟨k2, v2⟩ := e
    simp only [lookupA] at h
    split at h
    · rename_i h2
      obtain rfl := h2
      obtain rfl : v2 = v := Option.some.inj h
      exact List.mem_cons_self _ _
    · exact List.mem_cons_of_mem _ (ih h)

theorem lookupA_eraseA_self {α : Type} (k : String) (l : List (String × α))
    (h : (l.map Prod.fst).Nodup) : lookupA k (eraseA k l) = none := by
  induction l with
  | nil => rfl
  | cons e rest ih =>
    obtain ⟨k2, v2⟩ := e
    simp only [List.map_cons, List.nodup_cons] at h
    by_cases h2 : k2 = k
    · subst h2
      simpa [eraseA] using lookupA_eq_none_of_not_mem k2 rest h.1
    · simp [eraseA, lookupA, h2, ih h.2]

theorem lookupA_eraseA_ne {α : Type} (k k' : String) (l : List (String × α))
    (h : k' ≠ k) : lookupA k' (eraseA k l) = lookupA k' l := by
  induction l with
  | nil => rfl
  | cons e rest ih =>
    obtain ⟨k2, v2⟩ := e
    by_cases h2 : k2 = k
    · subst h2
      have h3 : ¬(k2 = k') := fun e => h (e.symm)
      simp [eraseA, lookupA, h3]
    · simp [eraseA, lookupA, h2, ih]

theorem mem_keys_insertA {α : Type} (k k' : String) (v : α) (l : List (String × α))
    (h : k' ∈ (insertA k v l).map Prod.fst) : k' = k ∨ k' ∈ l.map Prod.fst := by
  induction l with
  | nil =>
    simp only [insertA, List.map_cons, List.map_nil, List.mem_singleton] at h
    exact Or.inl h
  | cons e rest ih =>
    obtain ⟨k2, v2⟩ := e
    by_cases h2 : k2 = k
    · rw [show insertA k v ((k2, v2) :: rest) = (k, v) :: rest from by simp [insertA, h2]] at h
      simp only [List.map_cons, List.mem_cons] at h
      rcases h with h3 | h3
      · exact Or.inl h3
      · exact Or.inr (by simp only [List.map_cons, List.mem_cons]; exact Or.inr h3)
    · rw [show insertA k v ((k2, v2) :: rest) = (k2, v2) :: insertA k v rest from by
        simp [insertA, h2]] at h
      simp only [List.map_cons, List.mem_cons] at h
      rcases h with h3 | h3
      · exact Or.inr (by simp [h3])
      · rcases ih h3 with h4 | h4
        · exact Or.inl h4
        · exact Or.inr (List.mem_cons_of_mem _ h4)

theorem keys_insertA_nodup {α : Type} (k : String) (v : α) (l : List (String × α))
    (h : (l.map Prod.fst).Nodup) : ((insertA k v l).map Prod.fst).Nodup := by
  induction l with
  | nil => simp [insertA]
  | cons e rest ih =>
    obtain ⟨k2, v2⟩ := e
    simp only [List.map_cons, List.nodup_cons] at h
    by_cases h2 : k2 = k
    · rw [show insertA k v ((k2, v2) :: rest) = (k, v) :: rest from by simp [insertA, h2]]
      simp only [List.map_cons, List.nodup_cons]
      exact h2 ▸ h
    · rw [show insertA k v ((k2, v2) :: rest) = (k2, v2) :: insertA k v rest from by
        simp [insertA, h2]]
      simp only [List.map_cons, List.nodup_cons]
      refine ⟨fun hmem => ?_, ih h.2⟩
      rcases mem_keys_insertA k k2 v rest hmem with h3 | h3
      · exact h2 h3
      · exact h.1 h3

/-- The fallback scan misses when no discovered list's directory holds
the file. -/
theorem findTaskScan_eq_notFound (s : Store) (taskID : String) (ls : List TaskList)
    (h : ∀ l ∈ ls, readTaskFile s l.id taskID = none) :
    findTaskScan s taskID ls = .error (.notFound ("task not found: " ++ taskID)) := by
  induction ls with
  | nil => rfl
  | cons l rest ih =>
    simp only [findTaskScan, h l (List.mem_cons_self _ _)]
    exact ih fun l2 hm => h l2 (List.mem_cons_of_mem _ hm)

/-! Field-preservation lemmas for the form patch: no form field ever
writes `state_time` or `id`, and only the `list_id` field writes
`list_id`. -/

theorem applyFormTitle_fields (t : TaskF Task) (f : TaskForm) :
    (applyFormTitle t f).stateTime = t.stateTime ∧ (applyFormTitle t f).id = t.id ∧
    (applyFormTitle t f).listID = t.listID := by
  unfold applyFormTitle; split <;> exact ⟨rfl, rfl, rfl⟩

theorem applyFormDescription_fields (t : TaskF Task) (f : TaskForm) :
    (applyFormDescription t f).stateTime = t.stateTime ∧ (applyFormDescription t f).id = t.id ∧
    (applyFormDescription t f).listID = t.listID := by
  unfold applyFormDescription; split <;> exact ⟨rfl, rfl, rfl⟩

theorem applyFormState_fields (t : TaskF Task) (f : TaskForm) :
    (applyFormState t f).stateTime = t.stateTime ∧ (applyFormState t f).id = t.id ∧
    (applyFormState t f).listID = t.listID := by
  unfold applyFormState; split <;> exact ⟨rfl, rfl, rfl⟩

theorem applyFormListID_fields (t : TaskF Task) (f : TaskForm) :
    (applyFormListID t f).stateTime = t.stateTime ∧ (applyFormListID t f).id = t.id ∧
    (applyFormListID t f).listID = (if f.listID = "" then t.listID else f.listID) := by
  unfold applyFormListID
  by_cases h : f.listID = ""
  · simp [h]
  · simp [h]

theorem applyFormDueDate_fields (t : TaskF Task) (f : TaskForm) :
    (applyFormDueDate t f).stateTime = t.stateTime ∧ (applyFormDueDate t f).id = t.id ∧
    (applyFormDueDate t f).listID = t.listID := by
  unfold applyFormDueDate
  cases f.dueDate <;> exact ⟨rfl, rfl, rfl⟩

/-- The form patch never touches `state_time`. -/
theorem applyForm_stateTime (t : TaskF Task) (f : TaskForm) :
    (applyForm t f).stateTime = t.stateTime := by
  unfold applyForm
  rw [(applyFormDueDate_fields _ f).1, (applyFormListID_fields _ f).1,
    (applyFormState_fields _ f).1, (applyFormDescription_fields _ f).1,
    (applyFormTitle_fields _ f).1]

/-- The form patch never touches the task identifier. -/
theorem applyForm_id (t : TaskF Task) (f : TaskForm) :
    (applyForm t f).id = t.id := by
  unfold applyForm
  rw [(applyFormDueDate_fields _ f).2.1, (applyFormListID_fields _ f).2.1,
    (applyFormState_fields _ f).2.1, (applyFormDescription_fields _ f).2.1,
    (applyFormTitle_fields _ f).2.1]

/-- The form patch rewrites `list_id` exactly when the form carries a
non-empty `list_id`. -/
theorem applyForm_listID (t : TaskF Task) (f : TaskForm) :
    (applyForm t f).listID = (if f.listID = "" then t.listID else f.listID) := by
  unfold applyForm
  rw [(applyFormDueDate_fields _ f).2.2, (applyFormListID_fields _ f).2.2,
    (applyFormState_fields _ f).2.2, (applyFormDescription_fields _ f).2.2,
    (applyFormTitle_fields _ f).2.2]

/-! ### Claims -/

/-- Claim C7: for every valid List record and every Task record whose
`list_id` names an existing container, Create followed by Get returns
the record with `created_at`/`updated_at` set to the write-time clock
(and, for a Task whose `state_time` is zero, `state_time` as well), and
every other field unchanged. -/
theorem claim_c7_roundtrip (s : Store) (l : TaskList) (t : TaskF Task) (now : Nat)
    (h : (lookupA t.listID s.lists).isSome = true) :
    getList (createList s l now) l.id = .ok { l with createdAt := now, updatedAt := now } ∧
    ∃ s2, createTask s (.mk t) now = .ok s2 ∧
      getTask s2 t.listID t.id =
        .ok (.mk { t with createdAt := now, updatedAt := now,
                          stateTime := if t.stateTime = 0 then now else t.stateTime }) := by
  constructor
  · simp [createList, getList, lookupA_insertA_self]
  · obtain ⟨dir, hdir⟩ := Option.isSome_iff_exists.1 h
    simp only [createTask, hdir]
    refine ⟨_, rfl, ?_⟩
    simp [getTask, readTaskFile, lookupA_insertA_self]

/-- Witness for C7 at the concrete two-list store. -/
theorem claim_c7_roundtrip_witness :
    (lookupA wTask.listID wStore.lists).isSome = true ∧
    (getList (createList wStore ⟨"c", "New", "", 0, 0⟩ 5) "c" =
        .ok ⟨"c", "New", "", 5, 5⟩ ∧
      ∃ s2, createTask wStore (.mk { wTask with id := "t2", stateTime := 0 }) 5 = .ok s2 ∧
        getTask s2 "a" "t2" =
          .ok (.mk { wTask with id := "t2", createdAt := 5, updatedAt := 5, stateTime := 5 })) :=
  ⟨rfl, claim_c7_roundtrip wStore ⟨"c", "New", "", 0, 0⟩
    { wTask with id := "t2", stateTime := 0 } 5 rfl⟩

/-- Claim C9: when a list's tasks directory exists, `getTasksForList`
returns exactly the records of the files that parse, skipping corrupt
ones without failing; when the tasks directory is absent, it fails
NotFound rather than returning an empty collection. -/
theorem claim_c9_scan (s : Store) (listID : String) (dirA : ListDir)
    (entries : List (String × TaskFile)) (hA : lookupA listID s.lists = some dirA) :
    (dirA.tasksDir = some entries →
      getTasksForList s listID = .ok (goodTasks entries) ∧
      ∀ t : Task, t ∈ goodTasks entries ↔ ∃ k, (k, TaskFile.good t) ∈ entries) ∧
    (dirA.tasksDir = none → isNotFound (getTasksForList s listID) = true) := by
  constructor
  · intro hT
    refine ⟨by simp [getTasksForList, hA, hT], fun t => ?_⟩
    simp only [goodTasks, List.mem_filterMap]
    constructor
    · rintro ⟨⟨k, file⟩, hm, hf⟩
      cases file with
      | good t2 =>
        simp only [Option.some.injEq] at hf
        exact ⟨k, hf ▸ hm⟩
      | corrupt b => simp at hf
    · rintro ⟨k, hm⟩
      exact ⟨(k, TaskFile.good t), hm, rfl⟩
  · intro hT
    simp [getTasksForList, hA, hT, isNotFound]

/-- Witness for C9: list `a`'s directory holds one good and one corrupt
file; a store whose list `c` directory lacks a tasks sub-directory. -/
theorem claim_c9_scan_witness :
    lookupA "a" (Store.mk [("a", ⟨none, some [("t1", .good (.mk wTask)), ("bad", .corrupt "\x7boops")]⟩)]).lists
        = some ⟨none, some [("t1", .good (.mk wTask)), ("bad", .corrupt "\x7boops")]⟩ ∧
    ((⟨none, some [("t1", .good (.mk wTask)), ("bad", .corrupt "\x7boops")]⟩ : ListDir).tasksDir =
        some [("t1", .good (.mk wTask)), ("bad", .corrupt "\x7boops")] →
      getTasksForList (Store.mk [("a", ⟨none, some [("t1", .good (.mk wTask)), ("bad", .corrupt "\x7boops")]⟩)]) "a" =
          .ok (goodTasks [("t1", .good (.mk wTask)), ("bad", .corrupt "\x7boops")]) ∧
      ∀ t : Task, t ∈ goodTasks [("t1", .good (.mk wTask)), ("bad", .corrupt "\x7boops")] ↔
        ∃ k, (k, TaskFile.good t) ∈ [("t1", .good (.mk wTask)), ("bad", .corrupt "\x7boops")]) ∧
    ((⟨none, some [("t1", .good (.mk wTask)), ("bad", .corrupt "\x7boops")]⟩ : ListDir).tasksDir = none →
      isNotFound (getTasksForList (Store.mk [("a", ⟨none, some [("t1", .good (.mk wTask)), ("bad", .corrupt "\x7boops")]⟩)]) "a") = true) :=
  ⟨rfl, claim_c9_scan _ "a" _ _ rfl⟩

/-- Claim C10: `UpdateTask` is an upsert: when the owning list's
directory exists but no record file for the task does, it still
succeeds, creating the tasks sub-directory if needed and writing the
record as a new file, after which the task is retrievable. -/
theorem claim_c10_upsert (s : Store) (t : TaskF Task) (now : Nat) (dirA : ListDir)
    (hA : lookupA t.listID s.lists = some dirA)
    (habsent : readTaskFile s t.listID t.id = none) :
    ∃ s2, updateTask s (.mk t) now = .ok s2 ∧
      getTask s2 t.listID t.id = .ok (.mk { t with updatedAt := now }) := by
  simp only [updateTask, hA]
  refine ⟨_, rfl, ?_⟩
  simp [getTask, readTaskFile, lookupA_insertA_self]

/-- Witness for C10: updating a task that was never created, in a list
whose tasks directory is absent altogether. -/
theorem claim_c10_upsert_witness :
    lookupA "c" (Store.mk [("c", ⟨none, none⟩)]).lists = some ⟨none, none⟩ ∧
    readTaskFile (Store.mk [("c", ⟨none, none⟩)]) "c" "t9" = none ∧
    ∃ s2, updateTask (Store.mk [("c", ⟨none, none⟩)])
        (.mk { wTask with id := "t9", listID := "c" }) 7 = .ok s2 ∧
      getTask s2 "c" "t9" = .ok (.mk { wTask with id := "t9", listID := "c", updatedAt := 7 }) :=
  ⟨rfl, rfl, claim_c10_upsert (Store.mk [("c", ⟨none, none⟩)])
    { wTask with id := "t9", listID := "c" } 7 ⟨none, none⟩ rfl rfl⟩

/-- Claim C1: moving a task to a destination list that does not exist
fails NotFound, and the record file stored at the source is byte-for-byte
unchanged afterwards (the destination-existence check precedes both the
destination write and the source delete). -/
theorem claim_c1_move_dest_missing (s : Store) (A B taskID : String) (dirA : ListDir)
    (esA : List (String × TaskFile)) (t : TaskF Task) (now : Nat)
    (hA : lookupA A s.lists = some dirA)
    (hT : dirA.tasksDir = some esA)
    (hG : lookupA taskID esA = some (.good (.mk t)))
    (hB : lookupA B s.lists = none) :
    isNotFound (moveTask s A taskID B now).2 = true ∧
    readTaskFile (moveTask s A taskID B now).1 A taskID = some (.good (.mk t)) := by
  have hne : B ≠ A := by
    intro e
    rw [e, hA] at hB
    cases hB
  constructor
  · simp [moveTask, hA, hT, hG, lookupA_insertA_ne _ _ _ _ hne, hB, isNotFound]
  · simp [moveTask, hA, hT, hG, lookupA_insertA_ne _ _ _ _ hne, hB, readTaskFile,
      lookupA_insertA_self]

/-- Witness for C1: moving `t1` from `a` to the never-created list `zz`. -/
theorem claim_c1_move_dest_missing_witness :
    lookupA "a" wStore.lists = some wDirA ∧
    wDirA.tasksDir = some [("t1", .good (.mk wTask))] ∧
    lookupA "t1" [("t1", TaskFile.good (.mk wTask))] = some (.good (.mk wTask)) ∧
    lookupA "zz" wStore.lists = none ∧
    (isNotFound (moveTask wStore "a" "t1" "zz" 9).2 = true ∧
      readTaskFile (moveTask wStore "a" "t1" "zz" 9).1 "a" "t1" = some (.good (.mk wTask))) :=
  ⟨rfl, rfl, rfl, rfl,
    claim_c1_move_dest_missing wStore "a" "zz" "t1" wDirA _ wTask 9 rfl rfl rfl rfl⟩

/-- Claim C6: moving a task onto its own list is reported as a success
returning the record, yet the operation then removes the very file it
wrote, so afterwards no record for the task exists in the list and a
lookup fails NotFound: the record is lost. -/
theorem claim_c6_move_same_list (s : Store) (A taskID : String) (dirA : ListDir)
    (esA : List (String × TaskFile)) (t : TaskF Task) (now : Nat)
    (hA : lookupA A s.lists = some dirA)
    (hT : dirA.tasksDir = some esA)
    (hG : lookupA taskID esA = some (.good (.mk t)))
    (hnd : (esA.map Prod.fst).Nodup) :
    (moveTask s A taskID A now).2 = .ok (.mk { t with listID := A, updatedAt := now }) ∧
    readTaskFile (moveTask s A taskID A now).1 A taskID = none ∧
    isNotFound (getTask (moveTask s A taskID A now).1 A taskID) = true := by
  have herase :
      lookupA taskID (eraseA taskID
        (insertA taskID (TaskFile.good (.mk { t with listID := A, updatedAt := now })) esA)) =
        none :=
    lookupA_eraseA_self _ _ (keys_insertA_nodup _ _ _ hnd)
  refine ⟨?_, ?_, ?_⟩
  · simp [moveTask, hA, hT, hG, lookupA_insertA_self, removeTaskFile]
  · simp [moveTask, hA, hT, hG, lookupA_insertA_self, removeTaskFile, readTaskFile, herase]
  · simp [moveTask, hA, hT, hG, lookupA_insertA_self, removeTaskFile, getTask, readTaskFile,
      herase, isNotFound]

/-- Witness for C6: moving `t1` from `a` to `a` loses the record. -/
theorem claim_c6_move_same_list_witness :
    lookupA "a" wStore.lists = some wDirA ∧
    wDirA.tasksDir = some [("t1", .good (.mk wTask))] ∧
    lookupA "t1" [("t1", TaskFile.good (.mk wTask))] = some (.good (.mk wTask)) ∧
    (([("t1", TaskFile.good (.mk wTask))].map Prod.fst).Nodup) ∧
    ((moveTask wStore "a" "t1" "a" 9).2 = .ok (.mk { wTask with listID := "a", updatedAt := 9 }) ∧
      readTaskFile (moveTask wStore "a" "t1" "a" 9).1 "a" "t1" = none ∧
      isNotFound (getTask (moveTask wStore "a" "t1" "a" 9).1 "a" "t1") = true) :=
  ⟨rfl, rfl, rfl, by decide,
    claim_c6_move_same_list wStore "a" "t1" wDirA _ wTask 9 rfl rfl rfl (by decide)⟩

/-- Claim C4: a successful move to a distinct, existing destination
leaves the task retrievable in the destination with `list_id` equal to
the destination, and (strict addressing) no longer retrievable in the
source. -/
theorem claim_c4_move_correct (s : Store) (A B taskID : String) (dirA dirB : ListDir)
    (esA : List (String × TaskFile)) (t : TaskF Task) (now : Nat)
    (hA : lookupA A s.lists = some dirA)
    (hT : dirA.tasksDir = some esA)
    (hG : lookupA taskID esA = some (.good (.mk t)))
    (hB : lookupA B s.lists = some dirB)
    (hne : A ≠ B)
    (hnd : (esA.map Prod.fst).Nodup) :
    (moveTask s A taskID B now).2 = .ok (.mk { t with listID := B, updatedAt := now }) ∧
    getTask (moveTask s A taskID B now).1 B taskID =
      .ok (.mk { t with listID := B, updatedAt := now }) ∧
    (Task.mk { t with listID := B, updatedAt := now }).fields.listID = B ∧
    isNotFound (getTask (moveTask s A taskID B now).1 A taskID) = true := by
  have hBA : B ≠ A := Ne.symm hne
  have herase : lookupA taskID (eraseA taskID esA) = none := lookupA_eraseA_self _ _ hnd
  refine ⟨?_, ?_, rfl, ?_⟩
  · simp [moveTask, hA, hT, hG, lookupA_insertA_ne _ _ _ _ hBA, hB, removeTaskFile,
      lookupA_insertA_ne _ _ _ _ hne, lookupA_insertA_self]
  · simp [moveTask, hA, hT, hG, lookupA_insertA_ne _ _ _ _ hBA, hB, removeTaskFile,
      lookupA_insertA_ne _ _ _ _ hne, lookupA_insertA_self, getTask, readTaskFile]
  · simp [moveTask, hA, hT, hG, lookupA_insertA_ne _ _ _ _ hBA, hB, removeTaskFile,
      lookupA_insertA_ne _ _ _ _ hne, lookupA_insertA_self, getTask, readTaskFile, herase,
      isNotFound]

/-- Witness for C4: moving `t1` from `a` to the existing empty list `b`. -/
theorem claim_c4_move_correct_witness :
    lookupA "a" wStore.lists = some wDirA ∧
    wDirA.tasksDir = some [("t1", .good (.mk wTask))] ∧
    lookupA "t1" [("t1", TaskFile.good (.mk wTask))] = some (.good (.mk wTask)) ∧
    lookupA "b" wStore.lists = some wDirB ∧
    ("a" : String) ≠ "b" ∧
    (([("t1", TaskFile.good (.mk wTask))].map Prod.fst).Nodup) ∧
    ((moveTask wStore "a" "t1" "b" 9).2 = .ok (.mk { wTask with listID := "b", updatedAt := 9 }) ∧
      getTask (moveTask wStore "a" "t1" "b" 9).1 "b" "t1" =
        .ok (.mk { wTask with listID := "b", updatedAt := 9 }) ∧
      (Task.mk { wTask with listID := "b", updatedAt := 9 }).fields.listID = "b" ∧
      isNotFound (getTask (moveTask wStore "a" "t1" "b" 9).1 "a" "t1") = true) :=
  ⟨rfl, rfl, rfl, rfl, by decide, by decide,
    claim_c4_move_correct wStore "a" "b" "t1" wDirA wDirB _ wTask 9 rfl rfl rfl rfl
      (by decide) (by decide)⟩

/-- Counterexample to C2: in `c2Store` no file exists at
`lists/a/tasks/t1.json`, yet the fallback `GetTask` implementation
(filestore.go 717–769) returns the task stored under list `b` instead
of failing NotFound. -/
theorem claim_c2_counterexample :
    readTaskFile c2Store "a" "t1" = none ∧
    getTaskFallback c2Store "a" "t1" = .ok (.mk { wTask with listID := "b" }) :=
  ⟨rfl, rfl⟩

/-- Claim C2 as amended: the strict `GetTask` implementation
(filestore.go 256–275) fails NotFound whenever no record file exists at
the resolved path, regardless of other lists' contents; the fallback
implementation guarantees NotFound only when no discovered list's
container holds a file with that task id. -/
theorem claim_c2_strict_notfound (s : Store) (listID taskID : String)
    (h : readTaskFile s listID taskID = none) :
    isNotFound (getTask s listID taskID) = true ∧
    ((∀ l ∈ getAllLists s, readTaskFile s l.id taskID = none) →
      isNotFound (getTaskFallback s listID taskID) = true) := by
  constructor
  · simp [getTask, h, isNotFound]
  · intro hall
    by_cases he : listID = ""
    · subst he
      simp [getTaskFallback, h, isNotFound]
    · simp [getTaskFallback, h, he, isNotFound, findTaskScan_eq_notFound s taskID _ hall]

/-- Witness for the amended C2 at `c2Store`: task `zz` exists nowhere. -/
theorem claim_c2_strict_notfound_witness :
    readTaskFile c2Store "a" "zz" = none ∧
    (isNotFound (getTask c2Store "a" "zz") = true ∧
      ((∀ l ∈ getAllLists c2Store, readTaskFile c2Store l.id "zz" = none) →
        isNotFound (getTaskFallback c2Store "a" "zz") = true)) :=
  ⟨rfl, claim_c2_strict_notfound c2Store "a" "zz" rfl⟩

/-- Counterexample to C5: `created_at` is not immutable after the first
write: a second `CreateList` for the same id at a later clock rewrites
the stored `created_at` (filestore.go 104–107: both timestamps are set
to the current time unconditionally). -/
theorem claim_c5_counterexample :
    getList (createList (Store.mk []) c5List 1) "a" = .ok ⟨"a", "Inbox", "", 1, 1⟩ ∧
    getList (createList (createList (Store.mk []) c5List 1) c5List 2) "a" =
      .ok ⟨"a", "Inbox", "", 2, 2⟩ ∧
    (TaskList.mk "a" "Inbox" "" 2 2).createdAt ≠ (TaskList.mk "a" "Inbox" "" 1 1).createdAt :=
  ⟨rfl, rfl, by decide⟩

/-- Claim C5 as amended: `updated_at` is refreshed on every write, but
`created_at` is immutable only as a caller responsibility: every
`CreateList` (a repeat included) sets stored `created_at` to the
write-time clock, and `UpdateList` overwrites wholesale, storing the
caller-supplied `created_at` verbatim. -/
theorem claim_c5_timestamps (s : Store) (l : TaskList) (now : Nat) (dir : ListDir)
    (h : lookupA l.id s.lists = some dir) :
    getList (createList s l now) l.id = .ok { l with createdAt := now, updatedAt := now } ∧
    ∃ s2, updateList s l now = .ok s2 ∧
      getList s2 l.id = .ok { l with updatedAt := now } := by
  constructor
  · simp [createList, getList, lookupA_insertA_self]
  · simp only [updateList, h]
    refine ⟨_, rfl, ?_⟩
    simp [getList, lookupA_insertA_self]

/-- Witness for the amended C5: updating list `a` of the two-list store
at clock 9 stores the caller's `created_at` 0 and `updated_at` 9. -/
theorem claim_c5_timestamps_witness :
    lookupA "a" wStore.lists = some wDirA ∧
    (getList (createList wStore ⟨"a", "Inbox2", "", 3, 4⟩ 9) "a" =
        .ok ⟨"a", "Inbox2", "", 9, 9⟩ ∧
      ∃ s2, updateList wStore ⟨"a", "Inbox2", "", 3, 4⟩ 9 = .ok s2 ∧
        getList s2 "a" = .ok ⟨"a", "Inbox2", "", 3, 9⟩) :=
  ⟨rfl, claim_c5_timestamps wStore ⟨"a", "Inbox2", "", 3, 4⟩ 9 wDirA rfl⟩

/-- Claim C8: after a successful `DeleteList`, `GetList` and
`GetTasksForList` on that id fail NotFound, and a task the list
contained (and no other list contains) is retrievable by no lookup
path: the strict `GetTask`, and the fallback `GetTask` from any
starting list id, all fail NotFound. -/
theorem claim_c8_cascade (s : Store) (L taskID : String) (dirL : ListDir)
    (hL : lookupA L s.lists = some dirL)
    (hnd : (s.lists.map Prod.fst).Nodup)
    (honly : ∀ e ∈ s.lists, e.1 ≠ L → dirHasTask e.2 taskID = false) :
    ∃ s2, deleteList s L = .ok s2 ∧
      isNotFound (getList s2 L) = true ∧
      isNotFound (getTasksForList s2 L) = true ∧
      isNotFound (getTask s2 L taskID) = true ∧
      ∀ anyListID, isNotFound (getTaskFallback s2 anyListID taskID) = true := by
  simp only [deleteList, hL]
  refine ⟨_, rfl, ?_⟩
  have hnone : lookupA L (eraseA L s.lists) = none := lookupA_eraseA_self _ _ hnd
  have hread : ∀ lid, readTaskFile ⟨eraseA L s.lists⟩ lid taskID = none := by
    intro lid
    by_cases hlid : lid = L
    · subst hlid
      simp [readTaskFile, hnone]
    · have hl2 : lookupA lid (eraseA L s.lists) = lookupA lid s.lists :=
        lookupA_eraseA_ne _ _ _ hlid
      cases hcase : lookupA lid s.lists with
      | none => simp [readTaskFile, hl2, hcase]
      | some dir =>
        have hmem := lookupA_mem _ _ _ hcase
        have hfalse := honly (lid, dir) hmem hlid
        simp only [dirHasTask] at hfalse
        cases hdir : dir.tasksDir with
        | none => simp [readTaskFile, hl2, hcase, hdir]
        | some entries =>
          cases hlk : lookupA taskID entries with
          | some v =>
            rw [hdir] at hfalse
            simp [hlk] at hfalse
          | none => simp [readTaskFile, hl2, hcase, hdir, hlk]
  refine ⟨?_, ?_, ?_, ?_⟩
  · simp [getList, hnone, isNotFound]
  · simp [getTasksForList, hnone, isNotFound]
  · simp [getTask, readTaskFile, hnone, isNotFound]
  · intro anyListID
    have hscan := findTaskScan_eq_notFound ⟨eraseA L s.lists⟩ taskID
      (getAllLists ⟨eraseA L s.lists⟩) (fun l _ => hread l.id)
    by_cases he : anyListID = ""
    · simp [getTaskFallback, hread, he, isNotFound]
    · simp [getTaskFallback, hread, he, hscan, isNotFound]

/-- Witness for C8: deleting list `a` of the two-list store removes its
only task `t1` from every lookup path. -/
theorem claim_c8_cascade_witness :
    lookupA "a" wStore.lists = some wDirA ∧
    ((wStore.lists.map Prod.fst).Nodup) ∧
    (∀ e ∈ wStore.lists, e.1 ≠ "a" → dirHasTask e.2 "t1" = false) ∧
    (∃ s2, deleteList wStore "a" = .ok s2 ∧
      isNotFound (getList s2 "a") = true ∧
      isNotFound (getTasksForList s2 "a") = true ∧
      isNotFound (getTask s2 "a" "t1") = true ∧
      ∀ anyListID, isNotFound (getTaskFallback s2 anyListID "t1") = true) :=
  ⟨rfl, by decide, by decide, claim_c8_cascade wStore "a" "t1" wDirA rfl (by decide) (by decide)⟩

/-- Claim C3: an update of a stored task through the update handler that
changes the `state` field advances `state_time` to the write-time clock
(a value ≥ the previous `state_time`, the clock being monotone), and an
update that leaves `state` unchanged leaves `state_time` untouched.
The stored task is addressed consistently (record id and `list_id`
match its path) and the request keeps the task in its list. -/
theorem claim_c3_statetime (s : Store) (listID taskID : String) (dirA : ListDir)
    (esA : List (String × TaskFile)) (existing : TaskF Task) (form : TaskForm) (now : Nat)
    (hA : lookupA listID s.lists = some dirA)
    (hT : dirA.tasksDir = some esA)
    (hG : lookupA taskID esA = some (.good (.mk existing)))
    (hid : existing.id = taskID)
    (hlid : existing.listID = listID)
    (hform : form.listID = "" ∨ form.listID = listID)
    (hmono : existing.stateTime ≤ now) :
    ∃ u : TaskF Task,
      (handleUpdateTaskForm s listID taskID form now).2 = .ok (.mk u) ∧
      getTask (handleUpdateTaskForm s listID taskID form now).1 listID taskID = .ok (.mk u) ∧
      (u.state ≠ existing.state → u.stateTime = now ∧ existing.stateTime ≤ u.stateTime) ∧
      (u.state = existing.state → u.stateTime = existing.stateTime) := by
  have hget : getTask s listID taskID = .ok (.mk existing) := by
    simp [getTask, readTaskFile, hA, hT, hG]
  rcases hform with hf | hf <;>
    by_cases hst : (applyForm existing form).state = existing.state
  · refine ⟨{ applyForm existing form with updatedAt := now }, ?_, ?_, ?_, ?_⟩
    · simp only [handleUpdateTaskForm, hget]
      simp [hst, applyForm_listID, hf, hlid, updateTask, hA]
    · simp only [handleUpdateTaskForm, hget]
      simp [hst, applyForm_listID, hf, hlid, updateTask, hA,
        applyForm_id, hid, hT, getTask, readTaskFile, lookupA_insertA_self]
    · intro h
      exact absurd hst h
    · intro _
      exact applyForm_stateTime existing form
  · refine ⟨{ applyForm existing form with updatedAt := now, stateTime := now }, ?_, ?_, ?_, ?_⟩
    · simp only [handleUpdateTaskForm, hget]
      simp [hst, applyForm_listID, hf, hlid, updateTask, hA]
    · simp only [handleUpdateTaskForm, hget]
      simp [hst, applyForm_listID, hf, hlid, updateTask, hA,
        applyForm_id, hid, hT, getTask, readTaskFile, lookupA_insertA_self]
    · intro _
      exact ⟨rfl, hmono⟩
    · intro h
      exact absurd h hst
  · refine ⟨{ applyForm existing form with updatedAt := now }, ?_, ?_, ?_, ?_⟩
    · simp only [handleUpdateTaskForm, hget]
      simp [hst, applyForm_listID, hf, hlid, updateTask, hA]
    · simp only [handleUpdateTaskForm, hget]
      simp [hst, applyForm_listID, hf, hlid, updateTask, hA,
        applyForm_id, hid, hT, getTask, readTaskFile, lookupA_insertA_self]
    · intro h
      exact absurd hst h
    · intro _
      exact applyForm_stateTime existing form
  · refine ⟨{ applyForm existing form with updatedAt := now, stateTime := now }, ?_, ?_, ?_, ?_⟩
    · simp only [handleUpdateTaskForm, hget]
      simp [hst, applyForm_listID, hf, hlid, updateTask, hA]
    · simp only [handleUpdateTaskForm, hget]
      simp [hst, applyForm_listID, hf, hlid, updateTask, hA,
        applyForm_id, hid, hT, getTask, readTaskFile, lookupA_insertA_self]
    · intro _
      exact ⟨rfl, hmono⟩
    · intro h
      exact absurd h hst

/-- Witness for C3: a form that flips `t1` of list `a` from `todo` to
`done` at clock 5. -/
theorem claim_c3_statetime_witness :
    lookupA "a" wStore.lists = some wDirA ∧
    wDirA.tasksDir = some [("t1", .good (.mk wTask))] ∧
    lookupA "t1" [("t1", TaskFile.good (.mk wTask))] = some (.good (.mk wTask)) ∧
    wTask.id = "t1" ∧
    wTask.listID = "a" ∧
    (("" : String) = "" ∨ ("" : String) = "a") ∧
    wTask.stateTime ≤ 5 ∧
    ∃ u : TaskF Task,
      (handleUpdateTaskForm wStore "a" "t1" ⟨"", false, "", taskStateDone, "", .absent⟩ 5).2 =
        .ok (.mk u) ∧
      getTask (handleUpdateTaskForm wStore "a" "t1" ⟨"", false, "", taskStateDone, "", .absent⟩ 5).1
        "a" "t1" = .ok (.mk u) ∧
      (u.state ≠ wTask.state → u.stateTime = 5 ∧ wTask.stateTime ≤ u.stateTime) ∧
      (u.state = wTask.state → u.stateTime = wTask.stateTime) :=
  ⟨rfl, rfl, rfl, rfl, rfl, Or.inl rfl, by decide,
    claim_c3_statetime wStore "a" "t1" wDirA [("t1", .good (.mk wTask))] wTask
      ⟨"", false, "", taskStateDone, "", .absent⟩ 5 rfl rfl rfl rfl rfl (Or.inl rfl) (by decide)⟩

end Storage
